import Mathlib

/-!
Verification development for the Lockly slot manager and activity buffer
(`custom_components/lockly/manager.py`, `custom_components/lockly/activity.py`).

The Python code is shallowly embedded: dictionaries become association
lists, in-place mutation becomes explicit state passing, raised
`ServiceValidationError`s become an `Option String` error component, and
ISO-8601 timestamps become `Option Int` seconds (with `none` standing for a
missing or unparsable timestamp).  A dictionary key that is absent and a key
present with value `None` are both modelled as `none`.
-/

namespace Lockly

/-! ## Association-list helpers (Python `dict` with unique keys) -/

/-- `dict.get`: first binding of `key`, if any. -/
def alGet {α β : Type} [DecidableEq α] : List (α × β) → α → Option β
  | [], _ => none
  | (k, v) :: rest, key => if k = key then some v else alGet rest key

/-- `dict[key] = v`: replace the binding in place, or append a new one. -/
def alSet {α β : Type} [DecidableEq α] : List (α × β) → α → β → List (α × β)
  | [], key, v => [(key, v)]
  | (k, w) :: rest, key, v =>
    if k = key then (key, v) :: rest else (k, w) :: alSet rest key v

/-- `dict.pop(key, None)`: drop the first binding of `key`. -/
def alErase {α β : Type} [DecidableEq α] : List (α × β) → α → List (α × β)
  | [], _ => []
  | (k, w) :: rest, key => if k = key then rest else (k, w) :: alErase rest key

/-- Python `list.remove`: drop the first occurrence, or fail (`ValueError`)
when the element is absent. -/
def listRemoveFirst {α : Type} [DecidableEq α] : List α → α → Option (List α)
  | [], _ => none
  | x :: rest, y =>
    if x = y then some rest else (listRemoveFirst rest y).map (x :: ·)

/-! ## Activity events and deduplication (`activity.py`) -/

/-- `MAX_EVENTS` from `activity.py`. -/
def MAX_EVENTS : Nat := 100

/-- `DEDUP_WINDOW_SECONDS` from `activity.py`. -/
def DEDUP_WINDOW_SECONDS : Nat := 5

/-- A stored activity event.  `timestamp` is the parsed instant in seconds
(`none` = missing or unparsable); `source`, `user_name` and `slot_id` are
`none` when the key is absent (or bound to `None`). -/
structure Event where
  lock : String
  action : String
  timestamp : Option Int := none
  source : Option String := none
  user_name : Option String := none
  slot_id : Option Int := none
  deriving Repr, DecidableEq

/-- `_PHYSICAL_TO_BASE` from `activity.py`. -/
def physicalToBase (a : String) : Option String :=
  if a = "manual_lock" then some "lock"
  else if a = "manual_unlock" then some "unlock"
  else none

/-- `_AUTOMATION_SOURCES` from `activity.py`. -/
def automationSources : List String := ["rf", "remote"]

/-- Python truthiness of an optional string: `None` and `""` are falsy. -/
def strFalsy : Option String → Bool
  | none => true
  | some s => s = ""

/-- `_within_stored_window`: same lock and `|Δt| ≤ DEDUP_WINDOW_SECONDS`;
false when either timestamp is missing or unparsable. -/
def withinStoredWindow (prev curr : Event) : Bool :=
  if prev.lock ≠ curr.lock then false
  else
    match prev.timestamp, curr.timestamp with
    | some p, some c => (c - p).natAbs ≤ DEDUP_WINDOW_SECONDS
    | _, _ => false

/-- Case 1 of `_try_merge_stored`: `curr` is a physical variant and `prev`
the base action.  Keeps `prev`, upgrading `source` to `"automation"` when it
was an automation-style source and backfilling `user_name`/`slot_id`. -/
def mergeCase1 (prev curr : Event) : Event :=
  { prev with
    source :=
      if prev.source.getD "" ∈ automationSources then some "automation"
      else prev.source
    user_name :=
      if strFalsy prev.user_name ∧ ¬ strFalsy curr.user_name then curr.user_name
      else prev.user_name
    slot_id :=
      if prev.slot_id = none ∧ curr.slot_id ≠ none then curr.slot_id
      else prev.slot_id }

/-- Case 2 of `_try_merge_stored`: `prev` is a physical variant and `curr`
the base action.  Dict-merge `{**prev, **curr}` (a present field of `curr`
wins), then override `source` when the computed source is truthy. -/
def mergeCase2 (prev curr : Event) : Event :=
  let src :=
    if curr.source.getD "" ∈ automationSources then some "automation"
    else curr.source
  let merged : Event :=
    { lock := curr.lock
      action := curr.action
      timestamp := curr.timestamp <|> prev.timestamp
      source := curr.source <|> prev.source
      user_name := curr.user_name <|> prev.user_name
      slot_id := curr.slot_id <|> prev.slot_id }
  if strFalsy src then merged else { merged with source := src }

/-- `_try_merge_stored` from `activity.py`. -/
def tryMergeStored (prev curr : Event) : Option Event :=
  if ¬ withinStoredWindow prev curr then none
  else if (physicalToBase curr.action).isSome ∧
      some prev.action = physicalToBase curr.action then
    some (mergeCase1 prev curr)
  else if physicalToBase prev.action = some curr.action then
    some (mergeCase2 prev curr)
  else none

/-- `ActivityBuffer._dedup_events`: left-to-right fold that merges each
event into the last retained one when possible, otherwise appends it. -/
def dedupEvents (events : List Event) : List Event :=
  match events with
  | [] => []
  | e0 :: rest =>
    (rest.foldl
      (fun acc evt =>
        match acc with
        | last :: others =>
          match tryMergeStored last evt with
          | some m => m :: others
          | none => evt :: last :: others
        | [] => [evt])
      [e0]).reverse

/-! ## Slot data model (`coordinator.py`, `manager.py`) -/

/-- Error message constants from `manager.py`. -/
def NO_AVAILABLE_SLOTS : String := "no_available_slots"

/-- `SLOT_NOT_FOUND` from `manager.py`. -/
def SLOT_NOT_FOUND : String := "slot_not_found"

/-- `NO_LOCKS_CONFIGURED` from `manager.py`. -/
def NO_LOCKS_CONFIGURED : String := "no_locks_configured"

/-- `INVALID_PIN` from `manager.py`. -/
def INVALID_PIN : String := "invalid_pin"

/-- `INVALID_SLOT` from `manager.py`. -/
def INVALID_SLOT : String := "invalid_slot"

/-- `DEFAULT_ACTION_TIMEOUT` from `manager.py` (seconds). -/
def DEFAULT_ACTION_TIMEOUT : Nat := 10

/-- `MAX_ACTION_RETRIES` from `manager.py`. -/
def MAX_ACTION_RETRIES : Nat := 3

/-- A `last_response` diagnostic payload (`dict` in the source).  Only the
keys the manager itself writes are modelled. -/
structure LastResponse where
  lock : String := ""
  action : Option String := none
  status : String := ""
  attempts : Option Nat := none
  deriving Repr, DecidableEq

/-- `LocklySlot` from `coordinator.py`, with its field defaults. -/
structure LocklySlot where
  slot : Int
  name : String := ""
  pin : String := ""
  enabled : Bool := false
  busy : Bool := false
  status : String := ""
  last_response : Option LastResponse := none
  last_response_ts : Option Int := none
  deriving Repr, DecidableEq

/-- The coordinator's `data: dict[int, LocklySlot]` as an association list. -/
abbrev SlotTable : Type := List (Int × LocklySlot)

/-- `PIN_REGEX = r"^\d{4,8}$"` from `const.py`: 4 to 8 decimal digits
(`re.match` with a `$` anchor is a full match; digits modelled as ASCII). -/
def pinRegexMatch (s : String) : Bool :=
  let cs := s.toList
  decide (4 ≤ cs.length) && decide (cs.length ≤ 8) && cs.all (fun c => c.isDigit)

/-- The `SlotUpdate` TypedDict of `manager.py`: `none` = key absent (or
passed as `None`, which `updates.get` makes indistinguishable). -/
structure SlotUpdate where
  name : Option String := none
  pin : Option String := none
  enabled : Option Bool := none
  busy : Option Bool := none
  status : Option String := none
  last_response : Option LastResponse := none
  last_response_ts : Option Int := none
  deriving Repr, DecidableEq

/-- The `name`/`pin` assignments of `update_slot`, which happen before the
enable validation. -/
def applyNamePin (s : LocklySlot) (u : SlotUpdate) : LocklySlot :=
  let s1 := match u.name with | some n => { s with name := n } | none => s
  match u.pin with | some p => { s1 with pin := p } | none => s1

/-- The `busy`/`status`/`last_response`/`last_response_ts` assignments of
`update_slot`, which happen after the enable validation. -/
def applyTail (s : LocklySlot) (u : SlotUpdate) : LocklySlot :=
  let s1 := match u.busy with | some b => { s with busy := b } | none => s
  let s2 := match u.status with | some st => { s1 with status := st } | none => s1
  let s3 := match u.last_response with
    | some r => { s2 with last_response := some r }
    | none => s2
  match u.last_response_ts with
  | some ts => { s3 with last_response_ts := some ts }
  | none => s3

/-- `LocklyManager.update_slot`.  Returns the table after the call together
with the raised error, if any: mutations made before a raise persist, so on
`INVALID_PIN` the new `name`/`pin` are stored and `enabled` is forced off
while the remaining fields are left untouched. -/
def updateSlot (t : SlotTable) (slotId : Int) (u : SlotUpdate) :
    SlotTable × Option String :=
  match alGet t slotId with
  | none => (t, some SLOT_NOT_FOUND)
  | some slot0 =>
    let s := applyNamePin slot0 u
    match u.enabled with
    | some en =>
      if en ∧ ¬ pinRegexMatch s.pin then
        (alSet t slotId { s with enabled := false }, some INVALID_PIN)
      else
        (alSet t slotId (applyTail { s with enabled := en } u), none)
    | none => (alSet t slotId (applyTail s u), none)

/-- One record of the `export_slots` payload. -/
structure ExportRecord where
  slot : Int
  name : String
  pin : String
  enabled : Bool
  deriving Repr, DecidableEq

/-- `sorted(self._coordinator.data)`: the table's keys in ascending order. -/
def sortedKeys (t : SlotTable) : List Int :=
  (t.map Prod.fst).mergeSort (· ≤ ·)

/-- One record of the `export_slots` loop body. -/
def exportRecordOf (includePins : Bool) (slot : LocklySlot) : ExportRecord :=
  { slot := slot.slot
    name := slot.name
    pin := if includePins then slot.pin else ""
    enabled := slot.enabled }

/-- `LocklyManager.export_slots`. -/
def exportSlots (t : SlotTable) (includePins : Bool) : List ExportRecord :=
  (sortedKeys t).filterMap fun slotId =>
    (alGet t slotId).map (exportRecordOf includePins)

/-- One item of an `import_slots` payload.  `slot = none` models a missing
`"slot"` key; `name`/`pin` are `none` when absent or `None` (the source
normalises both to `""`). -/
structure ImportItem where
  slot : Option Int := none
  name : Option String := none
  pin : Option String := none
  enabled : Bool := false
  deriving Repr, DecidableEq

/-- The loop body of `import_slots` over the item list.  `_ensure_slot`'s
insertion and the `name`/`pin` assignments land in the table before the PIN
validation, so a raise leaves those partial mutations behind. -/
def importSlotsGo (first last : Int) : SlotTable → List ImportItem →
    SlotTable × Option String
  | t, [] => (t, none)
  | t, item :: rest =>
    match item.slot with
    | none => (t, some INVALID_SLOT)
    | some slotId =>
      if slotId < first ∨ slotId > last then (t, some INVALID_SLOT)
      else
        let slot0 := match alGet t slotId with
          | some s => s
          | none => { slot := slotId }
        let slot1 := { slot0 with name := item.name.getD "", pin := item.pin.getD "" }
        if item.enabled ∧ ¬ pinRegexMatch slot1.pin then
          (alSet t slotId slot1, some INVALID_PIN)
        else
          importSlotsGo first last
            (alSet t slotId
              { slot1 with
                enabled := item.enabled
                busy := false
                status := ""
                last_response := none
                last_response_ts := none })
            rest

/-- `LocklyManager.import_slots`: in replace mode the existing table is
cleared up front, then items are applied one by one. -/
def importSlots (first last : Int) (t : SlotTable) (items : List ImportItem)
    (replaceFlag : Bool) : SlotTable × Option String :=
  importSlotsGo first last (if replaceFlag then [] else t) items

/-! ## Acknowledgement correlator and timeout/retry machine (`manager.py`) -/

/-- An outbound MQTT command payload as stored in a pending action record.
`pinCode` is the `{"pin_code": {...}}` shape `_build_slot_payload` emits;
`other` stands for any stored value that fails the structural guard of
`_match_pending_state` (payload missing, not a dict, or without a
`pin_code` dict). -/
inductive ActionPayload where
  | pinCode (user : Int) (userType : String) (userEnabled : Bool)
      (pin : Option String)
  | other
  deriving Repr, DecidableEq

/-- A `_pending_actions` record: retry counter, stored payload and whether a
timeout timer handle is currently armed (`handle is not None`). -/
structure PendingAction where
  attempts : Nat := 0
  payload : ActionPayload := ActionPayload.other
  handle : Bool := false
  deriving Repr, DecidableEq

/-- One entry of a state snapshot's `users` map; `status` is `none` when the
`"status"` key is absent. -/
structure UserEntry where
  status : Option String := none
  deriving Repr, DecidableEq

/-- The manager state the correlator and timeout machine read and write.
Futures, timers and log output are not modelled; `published` records every
MQTT publish in order (`_publish_lock` calls). -/
structure CorrState where
  slots : SlotTable := []
  pendingByLock : List (String × List Int) := []
  pendingSlots : List (Int × List String) := []
  pendingLockNames : List (Int × List String) := []
  pendingActions : List ((Int × String) × PendingAction) := []
  slotPublishStarted : List Int := []
  removeAfterApply : List Int := []
  published : List (String × ActionPayload) := []
  deriving Repr, DecidableEq

/-- `_cancel_action_timer`: clear the timer handle of a pending action. -/
def cancelActionTimer (st : CorrState) (slotId : Int) (lockName : String) :
    CorrState :=
  match alGet st.pendingActions (slotId, lockName) with
  | none => st
  | some act =>
    let pa := alSet st.pendingActions (slotId, lockName) { act with handle := false }
    { st with pendingActions := pa }

/-- `_start_action_timer`: arm a timer for a pending action unless one is
already armed (the `lockly_skip_timeout` diagnostic mode is not modelled). -/
def startActionTimer (st : CorrState) (slotId : Int) (lockName : String) :
    CorrState :=
  match alGet st.pendingActions (slotId, lockName) with
  | none => st
  | some act =>
    if act.handle then st
    else
      let pa := alSet st.pendingActions (slotId, lockName) { act with handle := true }
      { st with pendingActions := pa }

/-- `_mark_slot_updating`: on a slot's first publish, record it and set
`status="updating"`. -/
def markSlotUpdating (st : CorrState) (slotId : Int) : CorrState :=
  if slotId ∈ st.slotPublishStarted then st
  else
    match alGet st.slots slotId with
    | none => st
    | some _ =>
      let st1 := { st with slotPublishStarted := slotId :: st.slotPublishStarted }
      { st1 with
          slots := (updateSlot st1.slots slotId { status := some "updating" }).1 }

/-- `_publish_lock`: record the outbound publish. -/
def publishLock (st : CorrState) (lockName : String) (payload : ActionPayload) :
    CorrState :=
  { st with published := st.published ++ [(lockName, payload)] }

/-- `_enqueue_publish` followed by the per-lock worker body (`_lock_worker`):
arm the timer, mark the slot updating, then publish.  The per-lock queue
only serialises these steps, so they are modelled as one transition. -/
def enqueuePublish (st : CorrState) (lockName : String) (slotId : Int)
    (payload : ActionPayload) : CorrState :=
  publishLock (markSlotUpdating (startActionTimer st slotId lockName) slotId)
    lockName payload

/-- `_finalize_slot_completion` without futures: remove the slot when a
wipe-and-remove apply requested it. -/
def finalizeSlotCompletion (st : CorrState) (slotId : Int) : CorrState :=
  if slotId ∈ st.removeAfterApply then
    { st with
      removeAfterApply := st.removeAfterApply.erase slotId,
      slots := alErase st.slots slotId }
  else st

/-- `set.discard` on a slot's still-pending device set, exactly as
`_complete_action`/`_handle_action_timeout` perform it: only when the set
exists and is non-empty (truthy). -/
def discardPendingLock (st : CorrState) (slotId : Int) (lockName : String) :
    CorrState :=
  match alGet st.pendingSlots slotId with
  | some locks =>
    if locks ≠ [] then
      { st with pendingSlots := alSet st.pendingSlots slotId (locks.erase lockName) }
    else st
  | none => st

/-- The local `pending_locks` value after the `discard`, used for the
`pending_locks is not None and not pending_locks` test. -/
def pendingLocksAfter (st : CorrState) (slotId : Int) (lockName : String) :
    Option (List String) :=
  match alGet st.pendingSlots slotId with
  | some locks => some (if locks ≠ [] then locks.erase lockName else locks)
  | none => none

/-- `_handle_action_timeout`: bounded retry with the same payload, then
timeout bookkeeping once attempts are exhausted. -/
def handleActionTimeout (maxRetries : Nat) (now : Int) (st : CorrState)
    (slotId : Int) (lockName : String) : CorrState :=
  match alGet st.pendingActions (slotId, lockName) with
  | none => st
  | some act =>
    let attempts := act.attempts
    if attempts < maxRetries then
      let pa := alSet st.pendingActions (slotId, lockName)
        { act with handle := false, attempts := attempts + 1 }
      enqueuePublish { st with pendingActions := pa } lockName slotId act.payload
    else
      let st1 := { st with pendingActions := alErase st.pendingActions (slotId, lockName) }
      let locksAfter := pendingLocksAfter st1 slotId lockName
      let st2 := discardPendingLock st1 slotId lockName
      match alGet st2.slots slotId with
      | none => st2
      | some _ =>
        let st3 := { st2 with
          slots := (updateSlot st2.slots slotId
            { status := some "timeout"
              last_response := some
                { lock := lockName, status := "timeout",
                  attempts := some (attempts + 1) }
              last_response_ts := some now }).1 }
        match locksAfter with
        | some [] =>
          let st4 := { st3 with
            pendingSlots := alErase st3.pendingSlots slotId,
            pendingLockNames := alErase st3.pendingLockNames slotId,
            slotPublishStarted := st3.slotPublishStarted.erase slotId }
          let st5 := { st4 with
            slots := (updateSlot st4.slots slotId
              { busy := some false, status := some "timeout" }).1 }
          finalizeSlotCompletion st5 slotId
        | _ => st3

/-- `_dequeue_pending_slot`: pop the head of a device's pending FIFO, or
remove an explicitly named slot id from anywhere in it; `None` (and an
untouched map) when the queue is empty or the id is not pending. -/
def dequeuePendingSlot (pendingByLock : List (String × List Int))
    (lockName : String) (slotId : Option Int) :
    Option Int × List (String × List Int) :=
  match alGet pendingByLock lockName with
  | none => (none, pendingByLock)
  | some [] => (none, pendingByLock)
  | some (h :: t) =>
    match slotId with
    | none =>
      (some h,
        if t = [] then alErase pendingByLock lockName
        else alSet pendingByLock lockName t)
    | some sid =>
      match listRemoveFirst (h :: t) sid with
      | none => (none, pendingByLock)
      | some rest =>
        (some sid,
          if rest = [] then alErase pendingByLock lockName
          else alSet pendingByLock lockName rest)

/-- `_match_pending_state`: decide whether a state-channel snapshot (its
`users` map, `none` when absent or not a dict) acknowledges the head pending
request of `lockName`.  The Python `users.get(str(slot_id)) or
users.get(slot_id)` double lookup is modelled as one integer-keyed lookup. -/
def matchPendingState (st : CorrState) (lockName : String)
    (users : Option (List (Int × UserEntry))) :
    Option (Int × String × String) :=
  match alGet st.pendingByLock lockName with
  | none => none
  | some [] => none
  | some (slotId :: _) =>
    match users with
    | none => none
    | some us =>
      match alGet st.pendingActions (slotId, lockName),
          (alGet us slotId).bind (·.status) with
      | some act, some status =>
        if ¬ act.handle ∨ status = "" then none
        else
          match act.payload with
          | ActionPayload.pinCode _ _ en _ =>
            let expected := if en then ["enabled"] else ["available", "disabled"]
            if status ∈ expected then
              some (slotId,
                (if en then "pin_code_added" else "pin_code_deleted"), status)
            else none
          | ActionPayload.other => none
      | _, _ => none

/-- `_complete_action`: cancel the timer, drop the pending record, remove
the device from the slot's pending set, then (only if the slot still
exists) record the response and possibly finish the fan-in. -/
def completeAction (now : Int) (st : CorrState) (lockName : String)
    (slotId : Int) (action : String) : CorrState :=
  let st1 := cancelActionTimer st slotId lockName
  let st2 := { st1 with pendingActions := alErase st1.pendingActions (slotId, lockName) }
  let locksAfter := pendingLocksAfter st2 slotId lockName
  let st3 := discardPendingLock st2 slotId lockName
  let status :=
    if action = "pin_code_deleted" then "available"
    else if action = "pin_code_added" then "enabled"
    else "unknown"
  match alGet st3.slots slotId with
  | none => st3
  | some _ =>
    let st4 := { st3 with
      slots := (updateSlot st3.slots slotId
        { last_response := some { lock := lockName, action := some action, status := status }
          last_response_ts := some now }).1 }
    match locksAfter with
    | some [] =>
      let st5 := { st4 with
        pendingSlots := alErase st4.pendingSlots slotId,
        slotPublishStarted := st4.slotPublishStarted.erase slotId }
      let st6 := { st5 with
        slots := (updateSlot st5.slots slotId
          { busy := some false, status := some "" }).1 }
      let st7 := { st6 with pendingLockNames := alErase st6.pendingLockNames slotId }
      finalizeSlotCompletion st7 slotId
    | _ => st4

/-- `handle_mqtt_state`: match the snapshot, dequeue the matched slot, and
complete the action; any failure leaves the state untouched. -/
def handleMqttState (now : Int) (st : CorrState) (lockName : String)
    (users : Option (List (Int × UserEntry))) : CorrState :=
  match matchPendingState st lockName users with
  | none => st
  | some (slotId, actionName, _) =>
    match dequeuePendingSlot st.pendingByLock lockName (some slotId) with
    | (none, _) => st
    | (some sid, pbl) =>
      completeAction now { st with pendingByLock := pbl } lockName sid actionName

/-- `_queue_slot_actions` specialised to a job with a single target lock,
followed by the per-lock worker processing its one queue entry. -/
def queueSlotActionsSingle (st : CorrState) (slotId : Int) (lockName : String)
    (payload : ActionPayload) : CorrState :=
  let st1 := { st with
    pendingSlots := alSet st.pendingSlots slotId [lockName],
    pendingLockNames := alSet st.pendingLockNames slotId [lockName] }
  let st2 := { st1 with
    pendingByLock := alSet st1.pendingByLock lockName
      (((alGet st1.pendingByLock lockName).getD []) ++ [slotId]) }
  let st3 := { st2 with
    pendingActions := alSet st2.pendingActions (slotId, lockName)
      { attempts := 0, payload := payload, handle := false } }
  enqueuePublish st3 lockName slotId payload

/-- Iterate `k` timer firings for one `(slot, device)` pair. -/
def iterTimeouts (maxRetries : Nat) (now : Int) (slotId : Int)
    (lockName : String) : Nat → CorrState → CorrState
  | 0, st => st
  | k + 1, st =>
    iterTimeouts maxRetries now slotId lockName k
      (handleActionTimeout maxRetries now st slotId lockName)

/-- A fresh manager state holding exactly one stored slot. -/
def initCorrState (slotId : Int) (slot0 : LocklySlot) : CorrState :=
  { slots := [(slotId, slot0)] }

/-- The no-acknowledgement scenario: queue a single-lock job for `slotId`
and let the timer fire until the retry budget is exhausted
(`maxRetries + 1` firings: `maxRetries` retries, then exhaustion). -/
def noAckRun (maxRetries : Nat) (now : Int) (slotId : Int) (lockName : String)
    (payload : ActionPayload) (slot0 : LocklySlot) : CorrState :=
  iterTimeouts maxRetries now slotId lockName (maxRetries + 1)
    (queueSlotActionsSingle (initCorrState slotId slot0) slotId lockName payload)

/-! ## Shared helper lemmas about the dictionary model -/

theorem alGet_alSet_self {α β : Type} [DecidableEq α] (l : List (α × β)) (k : α)
    (v : β) : alGet (alSet l k v) k = some v := by
  induction l with
  | nil => simp [alSet, alGet]
  | cons p rest ih =>
    obtain ⟨a, b⟩ := p
    by_cases h : a = k
    · simp [alSet, alGet, h]
    · simp [alSet, alGet, h, ih]

theorem alGet_eq_none_of_not_mem {α β : Type} [DecidableEq α]
    (l : List (α × β)) (k : α) (h : k ∉ l.map Prod.fst) : alGet l k = none := by
  induction l with
  | nil => simp [alGet]
  | cons p rest ih =>
    obtain ⟨a, b⟩ := p
    simp only [List.map_cons, List.mem_cons] at h
    push_neg at h
    have hak : ¬ a = k := fun hak => h.1 hak.symm
    simp [alGet, hak, ih h.2]

theorem alGet_alErase_self {α β : Type} [DecidableEq α] (l : List (α × β))
    (k : α) (hnd : (l.map Prod.fst).Nodup) : alGet (alErase l k) k = none := by
  induction l with
  | nil => simp [alErase, alGet]
  | cons p rest ih =>
    obtain ⟨a, b⟩ := p
    simp only [List.map_cons, List.nodup_cons] at hnd
    by_cases h : a = k
    · subst h
      simpa [alErase] using alGet_eq_none_of_not_mem rest a hnd.1
    · simp [alErase, alGet, h, ih hnd.2]

theorem listRemoveFirst_of_mem {α : Type} [DecidableEq α] (l : List α) (a : α)
    (h : a ∈ l) : listRemoveFirst l a = some (l.erase a) := by
  induction l with
  | nil => simp at h
  | cons x rest ih =>
    by_cases hx : x = a
    · simp [listRemoveFirst, hx, List.erase_cons_head]
    · have hmem : a ∈ rest := by
        rcases List.mem_cons.mp h with h1 | h1
        · exact absurd h1.symm hx
        · exact h1
      have hbeq : (x == a) = false := beq_false_of_ne hx
      simp [listRemoveFirst, hx, ih hmem, List.erase_cons, hbeq]

theorem listRemoveFirst_of_not_mem {α : Type} [DecidableEq α] (l : List α)
    (a : α) (h : a ∉ l) : listRemoveFirst l a = none := by
  induction l with
  | nil => simp [listRemoveFirst]
  | cons x rest ih =>
    simp only [List.mem_cons] at h
    push_neg at h
    have hx : ¬ x = a := fun hx => h.1 hx.symm
    simp [listRemoveFirst, hx, ih h.2]

/-! ## Claim C2: idempotence of the deduplication fold -/

/-- Three stored events on one lock, all within the 5 s window: two
`manual_lock` reports followed by the base `lock` confirmation. -/
def c2Events : List Event :=
  [ { lock := "Front Door", action := "manual_lock", timestamp := some 0 },
    { lock := "Front Door", action := "manual_lock", timestamp := some 1 },
    { lock := "Front Door", action := "lock", timestamp := some 2 } ]

/-- C2: `dedup(dedup(events)) == dedup(events)` fails on the code.  The
first pass keeps `manual_lock@0` (no rule merges two identical physical
actions) and folds `manual_lock@1` + `lock@2` into `lock@2`; the second
pass then merges `manual_lock@0` with that newly created `lock@2`, so
re-running the fold shrinks the output from two events to one. -/
theorem c2_dedup_not_idempotent_on_code :
    dedupEvents (dedupEvents c2Events) ≠ dedupEvents c2Events ∧
    (dedupEvents c2Events).length = 2 ∧
    (dedupEvents (dedupEvents c2Events)).length = 1 := by decide

/-! ## Claim C3: `one_touch_lock` + `lock` and the (absent) wide window -/

/-- A `one_touch_lock` at t = 0. -/
def c3OneTouch : Event :=
  { lock := "Front Door", action := "one_touch_lock", timestamp := some 0,
    source := some "manual" }

/-- A `lock` on the same device 30 s later: more than the 5 s short window,
well inside the claimed 60 s wide window. -/
def c3LockLater : Event :=
  { lock := "Front Door", action := "lock", timestamp := some 30,
    source := some "remote" }

/-- C3 counterexample: with the pair 30 s apart (outside the short window,
inside the claimed wide window) the claim predicts a single merged event,
but the code keeps both: `one_touch_lock` is not in `_PHYSICAL_TO_BASE` and
`activity.py` has no 60 s window at all. -/
theorem c3_merge_counterexample :
    dedupEvents [c3OneTouch, c3LockLater] = [c3OneTouch, c3LockLater] ∧
    (dedupEvents [c3OneTouch, c3LockLater]).length ≠ 1 := by decide

/-- C3 (amended): a `one_touch_lock` followed by a `lock` on the same or any
lock is never merged by the deduplication fold, whatever the timestamp
difference — the code has no wide window and no `one_touch_lock` rule. -/
theorem c3_one_touch_lock_never_merged (e1 e2 : Event)
    (h1 : e1.action = "one_touch_lock") (h2 : e2.action = "lock") :
    tryMergeStored e1 e2 = none ∧ dedupEvents [e1, e2] = [e1, e2] := by
  have hm : tryMergeStored e1 e2 = none := by
    unfold tryMergeStored
    rw [h1, h2]
    simp [physicalToBase]
  refine ⟨hm, ?_⟩
  simp [dedupEvents, hm]

/-- Witness for `c3_one_touch_lock_never_merged` at the concrete pair. -/
theorem c3_one_touch_lock_never_merged_witness :
    tryMergeStored c3OneTouch c3LockLater = none ∧
    dedupEvents [c3OneTouch, c3LockLater] = [c3OneTouch, c3LockLater] :=
  c3_one_touch_lock_never_merged c3OneTouch c3LockLater rfl rfl

/-! ## Claim C4: exact-repeat deduplication -/

/-- Two identical `lock` actions on one device, 1 s apart (the input of the
repository's own `test_dedup_same_action_lock_lock`). -/
def c4First : Event :=
  { lock := "Front Door", action := "lock", timestamp := some 0,
    source := some "automation" }

/-- The duplicate `lock` event 1 s later. -/
def c4Second : Event :=
  { lock := "Front Door", action := "lock", timestamp := some 1,
    source := some "remote" }

/-- C4: the code keeps both identical-action events — `_try_merge_stored`
only merges physical/base pairs, so an exact repeat within the window is
not collapsed, contradicting the claim and the repository's own
`test_dedup_same_action_lock_lock`/`test_loaded_same_action_deduped`. -/
theorem c4_exact_repeat_kept_by_code :
    dedupEvents [c4First, c4Second] = [c4First, c4Second] ∧
    (dedupEvents [c4First, c4Second]).length = 2 := by decide

/-! ## Claim C6: the dequeue operation of the correlator -/

/-- C6: `_dequeue_pending_slot` on a device's pending FIFO: empty queue
(or no queue at all) gives `None` with the map untouched; an explicit slot
id present anywhere in the FIFO is removed from its position and returned;
an explicit id that is not pending gives `None` with the map untouched; no
explicit id pops and returns the head. -/
theorem c6_dequeue_pending_slot_spec :
    (∀ (m : List (String × List Int)) (lockName : String)
      (explicit : Option Int), (alGet m lockName).getD [] = [] →
      dequeuePendingSlot m lockName explicit = (none, m)) ∧
    (∀ (m : List (String × List Int)) (lockName : String) (sid : Int)
      (q : List Int), (m.map Prod.fst).Nodup → alGet m lockName = some q →
      sid ∈ q →
      (dequeuePendingSlot m lockName (some sid)).1 = some sid ∧
      (alGet (dequeuePendingSlot m lockName (some sid)).2 lockName).getD [] =
        q.erase sid) ∧
    (∀ (m : List (String × List Int)) (lockName : String) (sid : Int)
      (q : List Int), alGet m lockName = some q → sid ∉ q →
      dequeuePendingSlot m lockName (some sid) = (none, m)) ∧
    (∀ (m : List (String × List Int)) (lockName : String) (h : Int)
      (t : List Int), (m.map Prod.fst).Nodup →
      alGet m lockName = some (h :: t) →
      (dequeuePendingSlot m lockName none).1 = some h ∧
      (alGet (dequeuePendingSlot m lockName none).2 lockName).getD [] = t) := by
  refine ⟨?_, ?_, ?_, ?_⟩
  · intro m lockName explicit hempty
    cases hm : alGet m lockName with
    | none => simp [dequeuePendingSlot, hm]
    | some q =>
      rw [hm] at hempty
      simp only [Option.getD_some] at hempty
      subst hempty
      simp [dequeuePendingSlot, hm]
  · intro m lockName sid q hnd hm hmem
    cases q with
    | nil => simp at hmem
    | cons h t =>
      have hrem : listRemoveFirst (h :: t) sid = some ((h :: t).erase sid) :=
        listRemoveFirst_of_mem _ _ hmem
      by_cases he : (h :: t).erase sid = []
      · simp [dequeuePendingSlot, hm, hrem, he, alGet_alErase_self m lockName hnd]
      · simp [dequeuePendingSlot, hm, hrem, he, alGet_alSet_self]
  · intro m lockName sid q hm hmem
    cases q with
    | nil => simp [dequeuePendingSlot, hm]
    | cons h t =>
      have hrem : listRemoveFirst (h :: t) sid = none :=
        listRemoveFirst_of_not_mem _ _ hmem
      simp [dequeuePendingSlot, hm, hrem]
  · intro m lockName h t hnd hm
    by_cases he : t = []
    · subst he
      simp [dequeuePendingSlot, hm, alGet_alErase_self m lockName hnd]
    · simp [dequeuePendingSlot, hm, he, alGet_alSet_self]

/-- Witness for `c6_dequeue_pending_slot_spec`: one concrete run of each
case, including a removal from the middle of the FIFO. -/
theorem c6_dequeue_pending_slot_spec_witness :
    dequeuePendingSlot [("A", ([] : List Int))] "A" none = (none, [("A", [])]) ∧
    ((dequeuePendingSlot [("A", [1, 2, 3])] "A" (some 2)).1 = some 2 ∧
      (alGet (dequeuePendingSlot [("A", [1, 2, 3])] "A" (some 2)).2 "A").getD []
        = ([1, 2, 3] : List Int).erase 2) ∧
    dequeuePendingSlot [("A", [1, 2, 3])] "A" (some 9) =
      (none, [("A", [1, 2, 3])]) ∧
    ((dequeuePendingSlot [("A", [1, 2, 3])] "A" none).1 = some 1 ∧
      (alGet (dequeuePendingSlot [("A", [1, 2, 3])] "A" none).2 "A").getD []
        = [2, 3]) :=
  ⟨c6_dequeue_pending_slot_spec.1 [("A", [])] "A" none (by decide),
   c6_dequeue_pending_slot_spec.2.1 [("A", [1, 2, 3])] "A" 2 [1, 2, 3]
     (by decide) (by decide) (by decide),
   c6_dequeue_pending_slot_spec.2.2.1 [("A", [1, 2, 3])] "A" 9 [1, 2, 3]
     (by decide) (by decide),
   c6_dequeue_pending_slot_spec.2.2.2 [("A", [1, 2, 3])] "A" 1 [2, 3]
     (by decide) (by decide)⟩

/-! ## Claim C10: `export_slots` without PINs reveals nothing about PINs -/

theorem all_of_filterMap {α β : Type} (keys : List α) (g : α → Option β)
    (p : β → Bool) (hg : ∀ a b, g a = some b → p b = true) :
    (keys.filterMap g).all p = true := by
  induction keys with
  | nil => rfl
  | cons k rest ih =>
    cases h : g k with
    | none => simpa [List.filterMap_cons, h] using ih
    | some b => simp [List.filterMap_cons, h, hg k b h, ih]

theorem alGet_map_entries (g : Int → LocklySlot → LocklySlot) (t : SlotTable)
    (k : Int) :
    alGet (t.map fun p => (p.1, g p.1 p.2)) k = (alGet t k).map (g k) := by
  induction t with
  | nil => rfl
  | cons p rest ih =>
    obtain ⟨a, b⟩ := p
    by_cases h : a = k
    · subst h
      simp [alGet]
    · simp [alGet, h, ih]

/-- C10: with `include_pins=false` every exported record carries `pin = ""`,
and the export is identical for any two slot tables that differ only in
their `pin` fields (here: the second table is the first with every pin
rewritten by an arbitrary function), so the output is independent of the
stored PIN values. -/
theorem c10_export_never_reveals_pins :
    ∀ (t : SlotTable) (f : Int → LocklySlot → String),
      ((exportSlots t false).all fun r => r.pin == "") = true ∧
      exportSlots (t.map fun p => (p.1, { p.2 with pin := f p.1 p.2 })) false =
        exportSlots t false := by
  intro t f
  constructor
  · apply all_of_filterMap
    intro a b hab
    rcases Option.map_eq_some'.mp hab with ⟨s, _, hb⟩
    subst hb
    rfl
  · have hkeys :
        sortedKeys (t.map fun p => (p.1, { p.2 with pin := f p.1 p.2 })) =
          sortedKeys t := by
      unfold sortedKeys
      congr 1
      simp [List.map_map]
    unfold exportSlots
    rw [hkeys]
    refine List.filterMap_congr fun a _ => ?_
    rw [alGet_map_entries (fun k s => { s with pin := f k s }) t a]
    cases alGet t a <;> rfl

/-! ## Claims C7 and C8: PIN/range validation of slot mutations -/

/-- If the import loop finishes without an error, every item carried an
in-range slot id and, when enabled, a well-formed PIN. -/
theorem importSlotsGo_ok_valid (first last : Int) :
    ∀ (items : List ImportItem) (t : SlotTable),
    (importSlotsGo first last t items).2 = none →
    ∀ it ∈ items, ∃ sid, it.slot = some sid ∧ first ≤ sid ∧ sid ≤ last ∧
      (it.enabled = true → pinRegexMatch (it.pin.getD "") = true) := by
  intro items
  induction items with
  | nil =>
    intro t _ it hit
    simp at hit
  | cons item rest ih =>
    intro t hok it hit
    cases hs : item.slot with
    | none => simp [importSlotsGo, hs] at hok
    | some sid =>
      by_cases hr : sid < first ∨ sid > last
      · simp [importSlotsGo, hs, hr] at hok
      · by_cases hp : item.enabled = true ∧ ¬ pinRegexMatch (item.pin.getD "")
        · simp [importSlotsGo, hs, hr, hp] at hok
        · rcases List.mem_cons.mp hit with h1 | h1
          · subst h1
            push_neg at hr
            refine ⟨sid, hs, hr.1, hr.2, ?_⟩
            intro hen
            by_contra hpin
            exact hp ⟨hen, by simpa using hpin⟩
          · simp only [importSlotsGo, hs] at hok
            rw [if_neg hr, if_neg hp] at hok
            exact ih _ hok it h1

/-- The slot stored before the enable check in `update_slot`: current slot
with the `name`/`pin` updates applied and the slot table it lives in. -/
theorem updateSlot_invalid_enable (t : SlotTable) (slotId : Int)
    (u : SlotUpdate) (s0 : LocklySlot) (hget : alGet t slotId = some s0)
    (hen : u.enabled = some true)
    (hpin : pinRegexMatch (applyNamePin s0 u).pin = false) :
    (updateSlot t slotId u).2 = some INVALID_PIN ∧
    alGet (updateSlot t slotId u).1 slotId =
      some { applyNamePin s0 u with enabled := false } := by
  unfold updateSlot
  rw [hget, hen]
  simp [hpin, alGet_alSet_self]

/-- The slot table and slot with an enabled slot whose PIN is well formed,
then a pin-only update that stores a malformed PIN. -/
def c7Table : SlotTable := [(1, { slot := 1, pin := "1234", enabled := true })]

/-- C7 counterexample: `update_slot(1, pin="12")` on an enabled slot
succeeds (no error) and leaves `enabled=true` with the malformed pin
`"12"` — the invariant is not enforced at this mutation point, because
`update_slot` only re-validates when the `enabled` field itself is part of
the update. -/
theorem c7_pin_update_counterexample :
    (updateSlot c7Table 1 { pin := some "12" }).2 = none ∧
    alGet (updateSlot c7Table 1 { pin := some "12" }).1 1 =
      some { slot := 1, pin := "12", enabled := true } ∧
    pinRegexMatch "12" = false := by decide

/-- C7 (amended): enabling re-validates — `update_slot(id, enabled=true)`
with a stored PIN failing the 4–8-digit check raises `InvalidPin` and
stores `enabled=false` — and a successful `import_slots` implies every
enabled item had a well-formed PIN; but a pin-only update does not
re-validate, so the global invariant fails (see the counterexample). -/
theorem c7_enable_validation :
    (∀ (t : SlotTable) (slotId : Int) (u : SlotUpdate) (s0 : LocklySlot),
      alGet t slotId = some s0 → u.enabled = some true →
      pinRegexMatch (applyNamePin s0 u).pin = false →
      (updateSlot t slotId u).2 = some INVALID_PIN ∧
      alGet (updateSlot t slotId u).1 slotId =
        some { applyNamePin s0 u with enabled := false }) ∧
    (∀ (first last : Int) (t : SlotTable) (items : List ImportItem)
      (replaceFlag : Bool),
      (importSlots first last t items replaceFlag).2 = none →
      ∀ it ∈ items, it.enabled = true →
        pinRegexMatch (it.pin.getD "") = true) := by
  constructor
  · exact updateSlot_invalid_enable
  · intro first last t items replaceFlag hok it hit hen
    rcases importSlotsGo_ok_valid first last items _ hok it hit with
      ⟨sid, _, _, _, hpin⟩
    exact hpin hen

/-- The slot used by the C7 witness: stored PIN `"12"`. -/
def c7ShortPinSlot : LocklySlot := { slot := 1, pin := "12" }

/-- The import item used by the C7 witness. -/
def c7GoodItem : ImportItem :=
  { slot := some 2, name := some "New", pin := some "1234", enabled := true }

/-- Witness for `c7_enable_validation`: slot 1 holds PIN `"12"`; enabling
fails with `invalid_pin` and stores `enabled=false`; and a successfully
imported enabled item with PIN `"1234"` certifies that PIN. -/
theorem c7_enable_validation_witness :
    ((updateSlot [(1, c7ShortPinSlot)] 1
        { enabled := some true }).2 = some INVALID_PIN ∧
      alGet (updateSlot [(1, c7ShortPinSlot)] 1
        { enabled := some true }).1 1 =
        some { applyNamePin c7ShortPinSlot
          ({ enabled := some true } : SlotUpdate) with enabled := false }) ∧
    pinRegexMatch (c7GoodItem.pin.getD "") = true :=
  ⟨c7_enable_validation.1 [(1, c7ShortPinSlot)] 1
      { enabled := some true } c7ShortPinSlot (by decide) rfl (by decide),
   c7_enable_validation.2 1 20 [] [c7GoodItem] true (by decide)
      c7GoodItem (by decide) rfl⟩

/-- A pre-existing table and an import payload whose second item is out of
range while the first is valid. -/
def c8Table : SlotTable :=
  [(1, { slot := 1, name := "Old", pin := "9999", enabled := true })]

/-- The import items: a valid slot 2 followed by an invalid slot 99. -/
def c8Items : List ImportItem :=
  [ { slot := some 2, name := some "New", pin := some "1234", enabled := true },
    { slot := some 99 } ]

/-- C8 counterexample: a replace-mode import whose second item is out of
range raises `invalid_slot`, yet the stored table is *not* left unchanged:
the old slot 1 is gone and the partially imported slot 2 is present. -/
theorem c8_partial_import_counterexample :
    (importSlots 1 20 c8Table c8Items true).2 = some INVALID_SLOT ∧
    (importSlots 1 20 c8Table c8Items true).1 ≠ c8Table ∧
    alGet (importSlots 1 20 c8Table c8Items true).1 1 = none ∧
    (alGet (importSlots 1 20 c8Table c8Items true).1 2).isSome = true := by
  decide

/-- C8 (amended): `import_slots` does validate — a run that completes
without error implies every item had an in-range id and, when enabled, a
well-formed PIN (validation stops the loop at the first bad item with
`invalid_slot`/`invalid_pin`) — but the replace-or-merge is not atomic: on
failure, the clearing done in replace mode and the items applied before
the failing one remain in the table (see the counterexample). -/
theorem c8_import_validates :
    ∀ (first last : Int) (t : SlotTable) (items : List ImportItem)
      (replaceFlag : Bool),
      (importSlots first last t items replaceFlag).2 = none →
      ∀ it ∈ items, ∃ sid, it.slot = some sid ∧ first ≤ sid ∧ sid ≤ last ∧
        (it.enabled = true → pinRegexMatch (it.pin.getD "") = true) := by
  intro first last t items replaceFlag hok
  exact importSlotsGo_ok_valid first last items _ hok

/-- The import item used by the C8 witness. -/
def c8GoodItem : ImportItem :=
  { slot := some 3, name := some "Alice", pin := some "4321", enabled := true }

/-- Witness for `c8_import_validates` at a concrete successful import. -/
theorem c8_import_validates_witness :
    ∃ sid, c8GoodItem.slot = some sid ∧ (1 : Int) ≤ sid ∧ sid ≤ 20 ∧
      (c8GoodItem.enabled = true →
        pinRegexMatch (c8GoodItem.pin.getD "") = true) :=
  c8_import_validates 1 20 [] [c8GoodItem] true (by decide) c8GoodItem
    (by decide)

/-! ## Claim C9: completion against a concurrently removed slot -/

theorem alErase_alSet {α β : Type} [DecidableEq α] (l : List (α × β)) (k : α)
    (v : β) : alErase (alSet l k v) k = alErase l k := by
  induction l with
  | nil => simp [alSet, alErase]
  | cons p rest ih =>
    obtain ⟨a, b⟩ := p
    by_cases h : a = k
    · simp [alSet, alErase, h]
    · simp [alSet, alErase, h, ih]

theorem cancelActionTimer_slots (st : CorrState) (slotId : Int)
    (lockName : String) : (cancelActionTimer st slotId lockName).slots = st.slots := by
  unfold cancelActionTimer
  cases alGet st.pendingActions (slotId, lockName) <;> rfl

theorem cancelActionTimer_pendingActions (st : CorrState) (slotId : Int)
    (lockName : String) :
    alErase (cancelActionTimer st slotId lockName).pendingActions
      (slotId, lockName) = alErase st.pendingActions (slotId, lockName) := by
  unfold cancelActionTimer
  cases alGet st.pendingActions (slotId, lockName) with
  | none => rfl
  | some act => simp [alErase_alSet]

/-- The state used by the C9 counterexample and witness: the slot table is
empty (slot 1 was removed), but an acknowledgement for `(1, "Front")` is
still pending. -/
def c9State : CorrState :=
  { slots := []
    pendingByLock := [("Front", [1])]
    pendingSlots := [(1, ["Front"])]
    pendingActions := [((1, "Front"),
      { attempts := 0,
        payload := ActionPayload.pinCode 1 "unrestricted" true (some "1234"),
        handle := true })] }

/-- C9 counterexample: completing an acknowledgement for a slot that no
longer exists does *not* leave everything unchanged — the pending-request
record is discarded and the device is removed from the slot's pending set
before the slot-existence check (only the slot table itself is spared). -/
theorem c9_mutation_counterexample :
    (completeAction 0 c9State "Front" 1 "pin_code_added").pendingActions ≠
      c9State.pendingActions ∧
    (completeAction 0 c9State "Front" 1 "pin_code_added").pendingSlots ≠
      c9State.pendingSlots ∧
    (completeAction 0 c9State "Front" 1 "pin_code_added").slots =
      c9State.slots := by decide

/-- C9 (amended): when the slot no longer exists, `_complete_action`
returns without touching the slot table, the per-device pending queues, the
pending lock-name lists, the publish-started set, the publish log or the
pending removals — but it does cancel-and-discard the pending-request
record and removes the device from the slot's still-pending set. -/
theorem c9_missing_slot_frame (now : Int) (st : CorrState) (lockName : String)
    (slotId : Int) (action : String)
    (hmiss : alGet st.slots slotId = none) :
    (completeAction now st lockName slotId action).slots = st.slots ∧
    (completeAction now st lockName slotId action).pendingByLock =
      st.pendingByLock ∧
    (completeAction now st lockName slotId action).pendingLockNames =
      st.pendingLockNames ∧
    (completeAction now st lockName slotId action).slotPublishStarted =
      st.slotPublishStarted ∧
    (completeAction now st lockName slotId action).published = st.published ∧
    (completeAction now st lockName slotId action).removeAfterApply =
      st.removeAfterApply ∧
    (completeAction now st lockName slotId action).pendingActions =
      alErase st.pendingActions (slotId, lockName) ∧
    (∀ locks, alGet st.pendingSlots slotId = some locks → locks ≠ [] →
      alGet (completeAction now st lockName slotId action).pendingSlots slotId
        = some (locks.erase lockName)) := by
  cases hact : alGet st.pendingActions (slotId, lockName) with
  | none =>
    cases hps : alGet st.pendingSlots slotId with
    | none =>
      refine ⟨?_, ?_, ?_, ?_, ?_, ?_, ?_, ?_⟩ <;>
        simp [completeAction, cancelActionTimer, discardPendingLock,
          pendingLocksAfter, hact, hps, hmiss]
    | some locks =>
      by_cases hl : locks = []
      · subst hl
        refine ⟨?_, ?_, ?_, ?_, ?_, ?_, ?_, ?_⟩ <;>
          simp [completeAction, cancelActionTimer, discardPendingLock,
            pendingLocksAfter, hact, hps, hmiss]
      · refine ⟨?_, ?_, ?_, ?_, ?_, ?_, ?_, ?_⟩ <;>
          simp [completeAction, cancelActionTimer, discardPendingLock,
            pendingLocksAfter, hact, hps, hmiss, hl, alGet_alSet_self]
  | some act =>
    cases hps : alGet st.pendingSlots slotId with
    | none =>
      refine ⟨?_, ?_, ?_, ?_, ?_, ?_, ?_, ?_⟩ <;>
        simp [completeAction, cancelActionTimer, discardPendingLock,
          pendingLocksAfter, hact, hps, hmiss, alErase_alSet]
    | some locks =>
      by_cases hl : locks = []
      · subst hl
        refine ⟨?_, ?_, ?_, ?_, ?_, ?_, ?_, ?_⟩ <;>
          simp [completeAction, cancelActionTimer, discardPendingLock,
            pendingLocksAfter, hact, hps, hmiss, alErase_alSet]
      · refine ⟨?_, ?_, ?_, ?_, ?_, ?_, ?_, ?_⟩ <;>
          simp [completeAction, cancelActionTimer, discardPendingLock,
            pendingLocksAfter, hact, hps, hmiss, hl, alErase_alSet,
            alGet_alSet_self]

/-- Witness for `c9_missing_slot_frame` at `c9State`. -/
theorem c9_missing_slot_frame_witness :
    (completeAction 0 c9State "Front" 1 "pin_code_added").slots =
      c9State.slots ∧
    (completeAction 0 c9State "Front" 1 "pin_code_added").pendingByLock =
      c9State.pendingByLock ∧
    (completeAction 0 c9State "Front" 1 "pin_code_added").pendingActions =
      alErase c9State.pendingActions (1, "Front") ∧
    alGet (completeAction 0 c9State "Front" 1 "pin_code_added").pendingSlots 1
      = some (["Front"].erase "Front") := by
  have h := c9_missing_slot_frame 0 c9State "Front" 1 "pin_code_added" rfl
  exact ⟨h.1, h.2.1, h.2.2.2.2.2.2.1,
    h.2.2.2.2.2.2.2 ["Front"] rfl (by decide)⟩

/-! ## Claim C5: the state-channel acknowledgement guard -/

/-- C5: a state snapshot for a device is matched as an acknowledgement iff
the device has a pending request (a queued slot with its pending-action
record), a timeout is currently armed for it, the snapshot's status for
that slot takes a value consistent with the direction of the pending
command (`"enabled"` for an enable; `"available"`/`"disabled"` for a
clear), and the stored payload is structurally a PIN-code command; when no
match is produced, `handle_mqtt_state` leaves the state unchanged. -/
theorem c5_state_ack_guard :
    ∀ (st : CorrState) (lockName : String)
      (users : Option (List (Int × UserEntry))) (now : Int),
    ((matchPendingState st lockName users).isSome = true ↔
      ∃ slotId rest,
        alGet st.pendingByLock lockName = some (slotId :: rest) ∧
        ∃ act, alGet st.pendingActions (slotId, lockName) = some act ∧
          act.handle = true ∧
          ∃ us, users = some us ∧
            ∃ status, (alGet us slotId).bind UserEntry.status = some status ∧
              status ≠ "" ∧
              ∃ user utype en pin,
                act.payload = ActionPayload.pinCode user utype en pin ∧
                status ∈ (if en then ["enabled"]
                  else ["available", "disabled"])) ∧
    (matchPendingState st lockName users = none →
      handleMqttState now st lockName users = st) := by
  intro st lockName users now
  refine ⟨?_, ?_⟩
  · cases hq : alGet st.pendingByLock lockName with
    | none => simp [matchPendingState, hq]
    | some q =>
      cases q with
      | nil => simp [matchPendingState, hq]
      | cons slotId rest =>
        cases users with
        | none => simp [matchPendingState, hq]
        | some us =>
          cases hact : alGet st.pendingActions (slotId, lockName) with
          | none => simp [matchPendingState, hq, hact]
          | some act =>
            cases hst : (alGet us slotId).bind UserEntry.status with
            | none => simp [matchPendingState, hq, hact, hst]
            | some status =>
              by_cases hh : act.handle = true
              · by_cases hempty : status = ""
                · simp [matchPendingState, hq, hact, hst, hh, hempty]
                · cases hpl : act.payload with
                  | other =>
                    simp [matchPendingState, hq, hact, hst, hh, hempty, hpl]
                  | pinCode user utype en pin =>
                    by_cases hmem : status ∈
                        (if en then ["enabled"] else ["available", "disabled"])
                    · simp [matchPendingState, hq, hact, hst, hh, hempty,
                        hpl, hmem]
                      refine ⟨user, utype, ?_⟩
                      cases en with
                      | false =>
                        exact Or.inl ⟨⟨rfl, rfl, rfl⟩, by simpa using hmem⟩
                      | true =>
                        exact Or.inr ⟨⟨rfl, rfl, rfl⟩, by simpa using hmem⟩
                    · simp [matchPendingState, hq, hact, hst, hh, hempty, hpl,
                        hmem]
                      intro x y
                      constructor
                      · intro _ _ hen
                        rw [hen] at hmem
                        simpa using hmem
                      · intro _ _ hen
                        rw [hen] at hmem
                        simpa using hmem
              · simp [matchPendingState, hq, hact, hst, hh]
  · intro hnone
    simp [handleMqttState, hnone]

/-- A matching state used by the C5 witness: one pending enable for slot 1
on device `"Front"` with an armed timer. -/
def c5State : CorrState :=
  { slots := [(1, { slot := 1, pin := "1234", enabled := true, busy := true })]
    pendingByLock := [("Front", [1])]
    pendingSlots := [(1, ["Front"])]
    pendingActions := [((1, "Front"),
      { attempts := 0,
        payload := ActionPayload.pinCode 1 "unrestricted" true (some "1234"),
        handle := true })] }

/-- Witness for `c5_state_ack_guard`: a snapshot whose `users` map reports
`"enabled"` for slot 1 is matched, and a snapshot without a `users` map is
ignored without any state change. -/
theorem c5_state_ack_guard_witness :
    ((matchPendingState c5State "Front"
        (some [(1, { status := some "enabled" })])).isSome = true ↔
      ∃ slotId rest,
        alGet c5State.pendingByLock "Front" = some (slotId :: rest) ∧
        ∃ act, alGet c5State.pendingActions (slotId, "Front") = some act ∧
          act.handle = true ∧
          ∃ us, (some [(1, { status := some "enabled" })] :
              Option (List (Int × UserEntry))) = some us ∧
            ∃ status, (alGet us slotId).bind UserEntry.status = some status ∧
              status ≠ "" ∧
              ∃ user utype en pin,
                act.payload = ActionPayload.pinCode user utype en pin ∧
                status ∈ (if en then ["enabled"]
                  else ["available", "disabled"])) ∧
    handleMqttState 7 c5State "Front" none = c5State :=
  ⟨(c5_state_ack_guard c5State "Front"
      (some [(1, { status := some "enabled" })]) 7).1,
   (c5_state_ack_guard c5State "Front" none 7).2 (by decide)⟩

/-! ## Claim C1: bounded retry and timeout exhaustion -/

/-- The manager state after the initial publish and `k` timer firings of
the no-acknowledgement scenario (each firing below the retry budget
re-publishes the same payload and re-arms the timer). -/
def retryState (k : Nat) (slotId : Int) (lockName : String)
    (payload : ActionPayload) (slot0 : LocklySlot) : CorrState :=
  { slots := [(slotId, { slot0 with status := "updating" })]
    pendingByLock := [(lockName, [slotId])]
    pendingSlots := [(slotId, [lockName])]
    pendingLockNames := [(slotId, [lockName])]
    pendingActions := [((slotId, lockName),
      { attempts := k, payload := payload, handle := true })]
    slotPublishStarted := [slotId]
    removeAfterApply := []
    published := List.replicate (k + 1) (lockName, payload) }

/-- The manager state after retry exhaustion in the no-acknowledgement
scenario. -/
def finalNoAck (maxRetries : Nat) (now : Int) (slotId : Int)
    (lockName : String) (payload : ActionPayload) (slot0 : LocklySlot) :
    CorrState :=
  { slots := [(slotId,
      { slot0 with
        status := "timeout"
        busy := false
        last_response := some
          { lock := lockName, status := "timeout",
            attempts := some (maxRetries + 1) }
        last_response_ts := some now })]
    pendingByLock := [(lockName, [slotId])]
    pendingSlots := []
    pendingLockNames := []
    pendingActions := []
    slotPublishStarted := []
    removeAfterApply := []
    published := List.replicate (maxRetries + 1) (lockName, payload) }

theorem queueSlotActionsSingle_init (slotId : Int) (lockName : String)
    (payload : ActionPayload) (slot0 : LocklySlot) :
    queueSlotActionsSingle (initCorrState slotId slot0) slotId lockName
      payload = retryState 0 slotId lockName payload slot0 := by
  simp [queueSlotActionsSingle, initCorrState, enqueuePublish,
    startActionTimer, markSlotUpdating, publishLock, updateSlot, applyNamePin,
    applyTail, alGet, alSet, retryState]

theorem handleActionTimeout_retry (maxRetries k : Nat) (now : Int)
    (slotId : Int) (lockName : String) (payload : ActionPayload)
    (slot0 : LocklySlot) (hk : k < maxRetries) :
    handleActionTimeout maxRetries now
      (retryState k slotId lockName payload slot0) slotId lockName =
      retryState (k + 1) slotId lockName payload slot0 := by
  simp [handleActionTimeout, retryState, alGet, alSet, enqueuePublish,
    startActionTimer, markSlotUpdating, publishLock, hk,
    List.replicate_succ' (k + 1)]

theorem handleActionTimeout_exhaust (maxRetries : Nat) (now : Int)
    (slotId : Int) (lockName : String) (payload : ActionPayload)
    (slot0 : LocklySlot) :
    handleActionTimeout maxRetries now
      (retryState maxRetries slotId lockName payload slot0) slotId lockName =
      finalNoAck maxRetries now slotId lockName payload slot0 := by
  simp [handleActionTimeout, retryState, finalNoAck, alGet, alSet, alErase,
    pendingLocksAfter, discardPendingLock, updateSlot, applyNamePin,
    applyTail, finalizeSlotCompletion, List.erase_cons]

theorem iterTimeouts_noAck (maxRetries : Nat) (now : Int) (slotId : Int)
    (lockName : String) (payload : ActionPayload) (slot0 : LocklySlot) :
    ∀ (k j : Nat), k + j = maxRetries →
    iterTimeouts maxRetries now slotId lockName (k + 1)
      (retryState j slotId lockName payload slot0) =
      finalNoAck maxRetries now slotId lockName payload slot0 := by
  intro k
  induction k with
  | zero =>
    intro j hj
    have hj' : j = maxRetries := by omega
    subst hj'
    simp [iterTimeouts, handleActionTimeout_exhaust]
  | succ k ih =>
    intro j hj
    have hjlt : j < maxRetries := by omega
    show iterTimeouts maxRetries now slotId lockName (k + 1)
      (handleActionTimeout maxRetries now
        (retryState j slotId lockName payload slot0) slotId lockName) = _
    rw [handleActionTimeout_retry maxRetries j now slotId lockName payload
      slot0 hjlt]
    exact ih (j + 1) (by omega)

/-- C1: in the no-acknowledgement scenario the timeout machine re-publishes
the exact same payload once per firing while `attempts < maxRetries`, so
the device receives exactly `maxRetries + 1` identical publishes
(`maxRetries = 1` gives 2: initial + 1 retry; the code ships
`MAX_ACTION_RETRIES = 3`, giving 4), and after exhaustion the pending
request is gone and the slot ends with `status="timeout"`, `busy=false`. -/
theorem c1_timeout_retry_publishes (maxRetries : Nat) (now : Int)
    (slotId : Int) (lockName : String) (payload : ActionPayload)
    (slot0 : LocklySlot) :
    (noAckRun maxRetries now slotId lockName payload slot0).published =
      List.replicate (maxRetries + 1) (lockName, payload) ∧
    alGet (noAckRun maxRetries now slotId lockName payload slot0).slots
      slotId = some
        { slot0 with
          status := "timeout"
          busy := false
          last_response := some
            { lock := lockName, status := "timeout",
              attempts := some (maxRetries + 1) }
          last_response_ts := some now } ∧
    alGet (noAckRun maxRetries now slotId lockName payload
      slot0).pendingActions (slotId, lockName) = none := by
  have hrun : noAckRun maxRetries now slotId lockName payload slot0 =
      finalNoAck maxRetries now slotId lockName payload slot0 := by
    unfold noAckRun
    rw [queueSlotActionsSingle_init]
    exact iterTimeouts_noAck maxRetries now slotId lockName payload slot0
      maxRetries 0 (by omega)
  rw [hrun]
  refine ⟨rfl, ?_, rfl⟩
  simp [finalNoAck, alGet]

end Lockly
